import Mathlib

/-!
Verification of the TaponTama capture-and-classify pipeline.

The definitions below are a shallow embedding of the repository source:
the client page (component `TaponTamaApp`: `processXimilarResult`,
`analyzeWaste`, `captureImage`, `stopCamera`, `resetApp` and the React
state flags it owns) and the server route handler (`POST` of
`/api/classify-waste`).  JavaScript numbers used as probabilities are
modelled as rationals, `Math.round` as the rational rounding function
`round`, strings as Lean strings, and the fallible browser calls as
explicit outcome parameters.
-/

namespace TaponTama

/-- The three-way waste category, source type `WasteClassification`
(the string union "biodegradable" | "non-biodegradable" | "recyclable"). -/
inductive WasteClassification where
  | biodegradable
  | nonBiodegradable
  | recyclable
  deriving DecidableEq

/-- Source interface `ClassificationResult`: category, integer confidence,
display item label and disposal tip. -/
@[ext]
structure ClassificationResult where
  type : WasteClassification
  confidence : ℤ
  item : String
  tips : String
  deriving DecidableEq

/-- One provider prediction, an element of an `outputs` array:
`{ label, prob }`. -/
structure RawPrediction where
  label : String
  prob : ℚ
  deriving DecidableEq

/-- One element of the provider payload `records` array; `outputs` may be
absent (`none`). -/
structure XimilarRecord where
  outputs : Option (List RawPrediction)
  deriving DecidableEq

/-- The provider payload shape `{ records: [...] }`; `records` may be
absent (`none`). -/
structure XimilarResult where
  records : Option (List XimilarRecord)
  deriving DecidableEq

/-- A value of the `wasteMapping` record in `processXimilarResult`. -/
structure MappingEntry where
  type : WasteClassification
  tips : String
  deriving DecidableEq

/-- The static `wasteMapping` table of `processXimilarResult`, key by key
in source order; a key not in the record yields `none` (JS `undefined`). -/
def wasteMapping : String → Option MappingEntry
  | "plastic_bottle" => some ⟨.recyclable,
      "Clean and place in recycling bin. Check local recycling guidelines for proper disposal."⟩
  | "plastic_bag" => some ⟨.recyclable,
      "Take to grocery store plastic bag recycling bins. Don\x27t put in curbside recycling."⟩
  | "paper" => some ⟨.recyclable,
      "Remove any plastic coating and place in paper recycling bin."⟩
  | "cardboard" => some ⟨.recyclable,
      "Flatten and place in cardboard recycling. Remove any tape or staples."⟩
  | "glass_bottle" => some ⟨.recyclable,
      "Clean thoroughly and place in glass recycling container."⟩
  | "aluminum_can" => some ⟨.recyclable,
      "Clean and place in metal recycling bin. Aluminum cans are highly recyclable!"⟩
  | "food_waste" => some ⟨.biodegradable,
      "Perfect for composting! Food waste makes excellent fertilizer."⟩
  | "fruit_peel" => some ⟨.biodegradable,
      "Compost this organic material to create nutrient-rich soil for plants!"⟩
  | "vegetable_scraps" => some ⟨.biodegradable,
      "Great for composting! These scraps will decompose naturally."⟩
  | "styrofoam" => some ⟨.nonBiodegradable,
      "This goes to general waste. Consider using reusable containers in the future!"⟩
  | "electronics" => some ⟨.nonBiodegradable,
      "Take to an e-waste recycling center. Never put electronics in regular trash!"⟩
  | "battery" => some ⟨.nonBiodegradable,
      "Take to battery recycling center. Batteries contain harmful chemicals."⟩
  | "general_waste" => some ⟨.nonBiodegradable,
      "This item should go in your general waste bin."⟩
  | _ => none

/-- The `general_waste` entry of the table, the default fallback of the
lookup `wasteMapping[category] || wasteMapping["general_waste"]`. -/
def generalWasteEntry : MappingEntry :=
  ⟨.nonBiodegradable, "This item should go in your general waste bin."⟩

/-- JS regex word character class `\w`: ASCII letters, digits and the
underscore. -/
def wordChar (c : Char) : Bool := c.isAlphanum || c = '_'

/-- The first `replace` of the item transform: every underscore becomes a
space (regex `/_/g` with replacement a space). -/
def spaceify (cs : List Char) : List Char :=
  cs.map fun c => if c = '_' then ' ' else c

/-- The second `replace` of the item transform: regex `/\b\w/g` with an
uppercasing replacement.  A word character is uppercased exactly when the
previous character is not a word character (the flag carries whether the
previous character was one; at the start it is false, the start of input
being a word boundary). -/
def regexCapitalize : Bool → List Char → List Char
  | _, [] => []
  | prevWord, c :: cs =>
    (if wordChar c && !prevWord then c.toUpper else c)
      :: regexCapitalize (wordChar c) cs

/-- The display item transform of `processXimilarResult`:
`label.replace(/_/g, " ").replace(/\b\w/g, l => l.toUpperCase())`. -/
def displayItem (label : String) : String :=
  String.mk (regexCapitalize false (spaceify label.data))

/-- Modelled from the spec: the wording underscores replaced by spaces and
the first letter of each word capitalized, words being the space-separated
runs.  The flag says whether the scan is inside a word; the first character
of each word is uppercased, all other characters are kept. -/
def specCapitalizeWords : Bool → List Char → List Char
  | _, [] => []
  | inWord, c :: cs =>
    if c = ' ' then c :: specCapitalizeWords false cs
    else if inWord then c :: specCapitalizeWords true cs
    else c.toUpper :: specCapitalizeWords true cs

/-- Modelled from the spec: the item-label transform as the spec words it,
to be compared with the source transform `displayItem`. -/
def specItemLabel (label : String) : String :=
  String.mk (specCapitalizeWords false (spaceify label.data))

/-- JS `String.prototype.toLowerCase` on the ASCII provider labels:
each character lowercased. -/
def lowercase (s : String) : String :=
  String.mk (s.data.map Char.toLower)

/-- One step of the reduce in `processXimilarResult`:
`(max, current) => current.prob > (max?.prob || 0) ? current : max`. -/
def topPredictionStep (max : Option RawPrediction) (current : RawPrediction) :
    Option RawPrediction :=
  if (match max with | some m => m.prob | none => 0) < current.prob then
    some current
  else max

/-- `predictions.reduce(..., null)`: the left fold of `topPredictionStep`
over the prediction list, starting from `null`. -/
def topPrediction (predictions : List RawPrediction) : Option RawPrediction :=
  predictions.foldl topPredictionStep none

/-- The `if (topPrediction)` branch of `processXimilarResult`: lowercase
the label, look it up in the table with the `general_waste` default, round
the probability to a percentage, build the display item. -/
def classifyPrediction (top : RawPrediction) : ClassificationResult :=
  let category := lowercase top.label
  let mapping := (wasteMapping category).getD generalWasteEntry
  { type := mapping.type
    confidence := round (top.prob * 100)
    item := displayItem top.label
    tips := mapping.tips }

/-- The final fallback of `processXimilarResult`, returned when the reduce
produced no prediction. -/
def unknownFallback : ClassificationResult :=
  { type := .nonBiodegradable
    confidence := 50
    item := "Unknown item"
    tips := "Unable to classify this item. Please dispose of it responsibly." }

/-- `ximilarResult.records?.[0]?.outputs || []`: the outputs of the first
record, or the empty list when records or outputs are absent or there is
no first record. -/
def extractPredictions (x : XimilarResult) : List RawPrediction :=
  match x.records with
  | some (r :: _) => r.outputs.getD []
  | _ => []

/-- The source mapper `processXimilarResult`. -/
def processXimilarResult (x : XimilarResult) : ClassificationResult :=
  match topPrediction (extractPredictions x) with
  | some top => classifyPrediction top
  | none => unknownFallback

/-- The `mockResults` array of `analyzeWaste`, in source order. -/
def mockResults : List ClassificationResult :=
  [ { type := .biodegradable, confidence := 92, item := "Food waste",
      tips := "Compost this organic material to create nutrient-rich soil for plants!" },
    { type := .recyclable, confidence := 88, item := "Plastic bottle",
      tips := "Clean and place in recycling bin. Check local recycling guidelines for proper disposal." },
    { type := .nonBiodegradable, confidence := 95, item := "Styrofoam container",
      tips := "This goes to general waste. Consider using reusable containers in the future!" } ]

/-- The list `mockResults` has exactly three entries. -/
def mockResultsLength : (3 : ℕ) = mockResults.length := rfl

/-- How the classification fetch of `analyzeWaste` settles: a parsed JSON
body on success, a non-success HTTP status (the code then throws locally),
or a thrown transport or parse exception. -/
inductive FetchOutcome where
  | ok (payload : XimilarResult)
  | httpError
  | transportError
  deriving DecidableEq

/-- Whether the outcome lands in the catch block of `analyzeWaste`: a
non-ok response (the local throw) or a thrown exception. -/
def isFailure : FetchOutcome → Bool
  | .ok _ => false
  | _ => true

/-- The classification core of `analyzeWaste`: on success the payload goes
through `processXimilarResult`; in the catch block the mock result at index
`Math.floor(Math.random() * 3)` is used, the random draw modelled as the
index it produces. -/
def analyzeWaste (outcome : FetchOutcome) (randomIndex : Fin 3) :
    ClassificationResult :=
  match outcome with
  | .ok payload => processXimilarResult payload
  | .httpError => mockResults.get (Fin.cast mockResultsLength randomIndex)
  | .transportError => mockResults.get (Fin.cast mockResultsLength randomIndex)

/-- A display-ready result: integer confidence between 0 and 100. -/
def validResult (res : ClassificationResult) : Prop :=
  0 ≤ res.confidence ∧ res.confidence ≤ 100

/-- The precondition of claim C3: every probability the provider returned
lies in the unit interval (vacuous on the failure outcomes). -/
def probsWellFormed : FetchOutcome → Prop
  | .ok payload => ∀ p ∈ extractPredictions payload, 0 ≤ p.prob ∧ p.prob ≤ 1
  | .httpError => True
  | .transportError => True

/-- How the outbound provider call of the route handler `POST` settles:
a parsed body on success, a non-ok status, or a thrown exception (which
also covers a malformed inbound request, both landing in the catch). -/
inductive ProviderOutcome where
  | ok (body : XimilarResult)
  | httpError (status : ℕ)
  | exception
  deriving DecidableEq

/-- Whether the provider call failed. -/
def providerFailed : ProviderOutcome → Bool
  | .ok _ => false
  | _ => true

/-- The response body of the route handler `POST` of
`/api/classify-waste`: the provider body on success, the fixed
`plastic_bottle` payload on a non-ok provider status, the fixed
`general_waste` payload from the catch block. -/
def classifyWastePOST : ProviderOutcome → XimilarResult
  | .ok body => body
  | .httpError _ => ⟨some [⟨some [⟨"plastic_bottle", 85/100⟩]⟩]⟩
  | .exception => ⟨some [⟨some [⟨"general_waste", 75/100⟩]⟩]⟩

/-- The video element as `captureImage` reads it: its intrinsic dimensions
and the current frame content (opaque). -/
structure VideoElement where
  videoWidth : ℕ
  videoHeight : ℕ
  frame : ℕ
  deriving DecidableEq

/-- The encoded capture produced by the canvas data-URL call at JPEG
quality 0.8: the canvas was resized to the video dimensions and the frame
drawn onto it. -/
structure EncodedImage where
  width : ℕ
  height : ℕ
  frame : ℕ
  deriving DecidableEq

/-- The alert-and-return failure paths of `captureImage`. -/
inductive CaptureError where
  | refsNotReady
  | frameNotReady
  | noCanvasContext
  deriving DecidableEq

/-- Drawing the video frame to the canvas and encoding it. -/
def drawAndEncode (v : VideoElement) : EncodedImage :=
  ⟨v.videoWidth, v.videoHeight, v.frame⟩

/-- The capture logic of `captureImage`: both refs must be present, then
the readiness check `video.videoWidth === 0 || video.videoHeight === 0`
fails early, then the 2d context must exist, and only then is a frame
drawn and encoded. -/
def captureImage (video : Option VideoElement) (canvasPresent : Bool)
    (contextAvailable : Bool) : Except CaptureError EncodedImage :=
  match video, canvasPresent with
  | some v, true =>
    if v.videoWidth = 0 ∨ v.videoHeight = 0 then .error .frameNotReady
    else if contextAvailable then .ok (drawAndEncode v)
    else .error .noCanvasContext
  | _, _ => .error .refsNotReady

/-- An acquired camera stream, identified opaquely. -/
abbrev MediaStream : Type := ℕ

/-- The component state of `TaponTamaApp`: the five React state flags plus
the stream ref. -/
structure AppState where
  isCapturing : Bool
  isInitializingCamera : Bool
  capturedImage : Option EncodedImage
  classification : Option ClassificationResult
  isAnalyzing : Bool
  stream : Option MediaStream
  deriving DecidableEq

/-- The initial component state: every flag false, nothing held. -/
def initialState : AppState :=
  { isCapturing := false, isInitializingCamera := false, capturedImage := none,
    classification := none, isAnalyzing := false, stream := none }

/-- The source `stopCamera`: stop and drop the stream, leave capture mode. -/
def stopCamera (s : AppState) : AppState :=
  { s with stream := none, isCapturing := false, isInitializingCamera := false }

/-- The source `resetApp`: clear the image, the result and the flags.  It
does not touch the stream ref. -/
def resetApp (s : AppState) : AppState :=
  { s with capturedImage := none, classification := none, isAnalyzing := false,
           isCapturing := false, isInitializingCamera := false }

/-- The state shows the start screen (the Idle state of the spec): not in
capture mode, no captured image, not initializing. -/
def idleView (s : AppState) : Prop :=
  s.isCapturing = false ∧ s.capturedImage = none ∧ s.isInitializingCamera = false

/-- The state shows a finished classification (the Captured(Done) state of
the spec): a captured image and a result are held and analysis is over. -/
def doneView (s : AppState) : Prop :=
  s.capturedImage.isSome ∧ s.classification.isSome ∧ s.isAnalyzing = false

/-- The event-handler transitions of `TaponTamaApp`, each guarded by the
view that offers it or by the handler sequence that schedules it.
The video element is rendered only inside the capture view (mounted while
`isCapturing` is true), so while `startCamera` runs the ref is null: on a
successful acquisition the handler stores the stream over whatever the
ref held, skips the whole videoRef block (metadata listener and timeout
fallback are never installed), and ends with the unconditional
`setIsInitializingCamera(false)` of line 140.  A failed acquisition ends
with the same flag reset and leaves the stream ref untouched.  No
transition sets `isCapturing` to true, because the listener that would is
never attached in this source.  The remaining handlers: the cancel button
and the success and failure of `captureImage` (capture view only; success
runs `setCapturedImage`, then `stopCamera`, then enters `analyzeWaste`),
the completion of `analyzeWaste`, and the reset button (done view only). -/
inductive Step : AppState → AppState → Prop where
  | startCameraRequest (s : AppState) : idleView s →
      Step s { s with isInitializingCamera := true }
  | streamAcquired (s : AppState) (m : MediaStream) :
      s.isInitializingCamera = true →
      Step s { s with stream := some m, isInitializingCamera := false }
  | cameraFailed (s : AppState) :
      s.isInitializingCamera = true →
      Step s { s with isInitializingCamera := false }
  | cancelCamera (s : AppState) : s.isCapturing = true →
      Step s (stopCamera s)
  | captureSucceeded (s : AppState) (img : EncodedImage) : s.isCapturing = true →
      Step s { stopCamera { s with capturedImage := some img } with isAnalyzing := true }
  | captureFailed (s : AppState) : s.isCapturing = true →
      Step s s
  | classificationDone (s : AppState) (r : ClassificationResult) :
      s.isAnalyzing = true →
      Step s { s with classification := some r, isAnalyzing := false }
  | resetPressed (s : AppState) : doneView s →
      Step s (resetApp s)

/-- States reachable from the initial component state through the
event-handler transitions. -/
inductive Reachable : AppState → Prop where
  | init : Reachable initialState
  | step {s t : AppState} : Reachable s → Step s t → Reachable t

/-- The state the component reaches when the very first acquisition
succeeds: every flag false, no image, no result, and the live stream
still held in the ref while the start screen is shown. -/
def leakedState : AppState :=
  { isCapturing := false, isInitializingCamera := false, capturedImage := none,
    classification := none, isAnalyzing := false, stream := some 0 }

/-- Concrete payload of the C5 scenario: one record whose outputs list
holds the single prediction plastic_bottle at probability 0.85. -/
def plasticBottlePayload : XimilarResult :=
  ⟨some [⟨some [⟨"plastic_bottle", 85/100⟩]⟩]⟩

/-- Concrete tie payload of the C1 scenario: battery then aluminum can,
both at probability 0.6. -/
def tiePayload : XimilarResult :=
  ⟨some [⟨some [⟨"battery", 6/10⟩, ⟨"aluminum_can", 6/10⟩]⟩]⟩

/-- Concrete payload with a single prediction of probability 0. -/
def zeroProbPayload : XimilarResult :=
  ⟨some [⟨some [⟨"battery", 0⟩]⟩]⟩

/-- Concrete non-empty payload in which every prediction has
probability 0. -/
def allZeroPayload : XimilarResult :=
  ⟨some [⟨some [⟨"battery", 0⟩, ⟨"paper", 0⟩]⟩]⟩

/-- Concrete payload whose single prediction label is not a key of the
mapping table. -/
def unknownLabelPayload : XimilarResult :=
  ⟨some [⟨some [⟨"Banana_Peel", 9/10⟩]⟩]⟩

/-- Concrete payload whose first record has an absent outputs list. -/
def absentOutputsPayload : XimilarResult :=
  ⟨some [⟨none⟩]⟩

/-- A result produced by the reduce is an element of the prediction list
(or was already the accumulator). -/
theorem foldl_topStep_mem (ps : List RawPrediction) :
    ∀ (acc : Option RawPrediction) (t : RawPrediction),
      ps.foldl topPredictionStep acc = some t → acc = some t ∨ t ∈ ps := by
  induction ps with
  | nil => intro acc t h; exact Or.inl h
  | cons p ps ih =>
    intro acc t h
    rw [List.foldl_cons] at h
    rcases ih _ t h with hacc | hmem
    · unfold topPredictionStep at hacc
      split at hacc
      · injection hacc with hpt
        exact Or.inr (hpt ▸ List.mem_cons_self p ps)
      · exact Or.inl hacc
    · exact Or.inr (List.mem_cons_of_mem _ hmem)

/-- The winning prediction is one of the listed predictions. -/
theorem topPrediction_mem (ps : List RawPrediction) (t : RawPrediction)
    (h : topPrediction ps = some t) : t ∈ ps := by
  rcases foldl_topStep_mem ps none t h with h1 | h1
  · exact absurd h1 (by simp)
  · exact h1

/-- When no prediction has positive probability, the reduce keeps its
initial null accumulator. -/
theorem foldl_topStep_none (ps : List RawPrediction)
    (h : ∀ p ∈ ps, p.prob ≤ 0) : ps.foldl topPredictionStep none = none := by
  induction ps with
  | nil => rfl
  | cons p ps ih =>
    rw [List.foldl_cons]
    have hp : p.prob ≤ 0 := h p (List.mem_cons_self p ps)
    have hstep : topPredictionStep none p = none := by
      unfold topPredictionStep
      exact if_neg (not_lt.mpr hp)
    rw [hstep]
    exact ih fun q hq => h q (List.mem_cons_of_mem _ hq)

/-- Folding from a positive accumulator either keeps it, all later
probabilities being at most its, or lands on a strictly better list
element before which everything is strictly smaller. -/
theorem foldl_topStep_some_spec (ps : List RawPrediction) :
    ∀ t : RawPrediction, 0 < t.prob →
      (ps.foldl topPredictionStep (some t) = some t ∧ ∀ p ∈ ps, p.prob ≤ t.prob) ∨
      (∃ l1 u l2, ps = l1 ++ u :: l2 ∧
        ps.foldl topPredictionStep (some t) = some u ∧ t.prob < u.prob ∧
        (∀ p ∈ ps, p.prob ≤ u.prob) ∧ ∀ p ∈ l1, p.prob < u.prob) := by
  induction ps with
  | nil => intro t _; left; exact ⟨rfl, by simp⟩
  | cons p ps ih =>
    intro t ht
    rw [List.foldl_cons]
    by_cases hc : t.prob < p.prob
    · have hstep : topPredictionStep (some t) p = some p := by
        unfold topPredictionStep
        exact if_pos hc
      rw [hstep]
      rcases ih p (lt_trans ht hc) with ⟨heq, hall⟩ |
        ⟨l1, u, l2, hdec, heq, hlt, hmax, hfirst⟩
      · right
        refine ⟨[], p, ps, rfl, heq, hc, ?_, by simp⟩
        intro q hq
        rcases List.mem_cons.mp hq with rfl | hq
        · exact le_refl _
        · exact hall q hq
      · right
        refine ⟨p :: l1, u, l2, by rw [hdec]; rfl, heq, lt_trans hc hlt, ?_, ?_⟩
        · intro q hq
          rcases List.mem_cons.mp hq with rfl | hq
          · exact le_of_lt hlt
          · exact hmax q hq
        · intro q hq
          rcases List.mem_cons.mp hq with rfl | hq
          · exact hlt
          · exact hfirst q hq
    · have hstep : topPredictionStep (some t) p = some t := by
        unfold topPredictionStep
        exact if_neg hc
      rw [hstep]
      have hp : p.prob ≤ t.prob := not_lt.mp hc
      rcases ih t ht with ⟨heq, hall⟩ | ⟨l1, u, l2, hdec, heq, hlt, hmax, hfirst⟩
      · left
        refine ⟨heq, ?_⟩
        intro q hq
        rcases List.mem_cons.mp hq with rfl | hq
        · exact hp
        · exact hall q hq
      · right
        refine ⟨p :: l1, u, l2, by rw [hdec]; rfl, heq, hlt, ?_, ?_⟩
        · intro q hq
          rcases List.mem_cons.mp hq with rfl | hq
          · exact le_of_lt (lt_of_le_of_lt hp hlt)
          · exact hmax q hq
        · intro q hq
          rcases List.mem_cons.mp hq with rfl | hq
          · exact lt_of_le_of_lt hp hlt
          · exact hfirst q hq

/-- A list with a positive-probability element splits at its first such
element. -/
theorem exists_pos_split (ps : List RawPrediction)
    (h : ∃ p ∈ ps, 0 < p.prob) :
    ∃ zs t rest, ps = zs ++ t :: rest ∧ (∀ z ∈ zs, z.prob ≤ 0) ∧ 0 < t.prob := by
  induction ps with
  | nil => simp at h
  | cons p ps ih =>
    by_cases hp : 0 < p.prob
    · exact ⟨[], p, ps, rfl, by simp, hp⟩
    · obtain ⟨q, hq, hqpos⟩ := h
      rcases List.mem_cons.mp hq with rfl | hq
      · exact absurd hqpos hp
      · obtain ⟨zs, t, rest, hdec, hzs, htpos⟩ := ih ⟨q, hq, hqpos⟩
        refine ⟨p :: zs, t, rest, by rw [hdec]; rfl, ?_, htpos⟩
        intro z hz
        rcases List.mem_cons.mp hz with rfl | hz
        · exact not_lt.mp hp
        · exact hzs z hz

/-- When some probability is positive, the reduce returns the first
element of maximal probability: it bounds every listed probability and
every element before it is strictly smaller. -/
theorem topPrediction_first_max (ps : List RawPrediction)
    (h : ∃ p ∈ ps, 0 < p.prob) :
    ∃ l1 u l2, ps = l1 ++ u :: l2 ∧ topPrediction ps = some u ∧ 0 < u.prob ∧
      (∀ p ∈ ps, p.prob ≤ u.prob) ∧ ∀ p ∈ l1, p.prob < u.prob := by
  obtain ⟨zs, t, rest, hdec, hzs, htpos⟩ := exists_pos_split ps h
  subst hdec
  unfold topPrediction
  rw [List.foldl_append, foldl_topStep_none zs hzs, List.foldl_cons]
  have hstep : topPredictionStep none t = some t := by
    unfold topPredictionStep
    exact if_pos htpos
  rw [hstep]
  rcases foldl_topStep_some_spec rest t htpos with ⟨heq, hall⟩ |
    ⟨r1, u, r2, hdec2, heq, hlt, hmax, hfirst⟩
  · refine ⟨zs, t, rest, rfl, heq, htpos, ?_, ?_⟩
    · intro q hq
      rcases List.mem_append.mp hq with hq | hq
      · exact le_of_lt (lt_of_le_of_lt (hzs q hq) htpos)
      · rcases List.mem_cons.mp hq with rfl | hq
        · exact le_refl _
        · exact hall q hq
    · intro q hq
      exact lt_of_le_of_lt (hzs q hq) htpos
  · refine ⟨zs ++ t :: r1, u, r2, by rw [hdec2]; simp, heq,
      lt_trans htpos hlt, ?_, ?_⟩
    · intro q hq
      rcases List.mem_append.mp hq with hq | hq
      · exact le_of_lt (lt_of_le_of_lt (hzs q hq) (lt_trans htpos hlt))
      · rcases List.mem_cons.mp hq with rfl | hq
        · exact le_of_lt hlt
        · exact hmax q hq
    · intro q hq
      rcases List.mem_append.mp hq with hq | hq
      · exact lt_of_le_of_lt (hzs q hq) (lt_trans htpos hlt)
      · rcases List.mem_cons.mp hq with rfl | hq
        · exact hlt
        · exact hfirst q hq

/-- A probability in the unit interval rounds to a percentage between 0
and 100. -/
theorem round_prob_bounds (q : ℚ) (h0 : 0 ≤ q) (h1 : q ≤ 1) :
    0 ≤ round (q * 100) ∧ round (q * 100) ≤ 100 := by
  rw [round_eq]
  constructor
  · exact Int.floor_nonneg.mpr (by nlinarith)
  · rw [Int.floor_le_iff]
    push_cast
    nlinarith

/-- The source item transform agrees with the spec wording on strings of
letters, digits and spaces. -/
theorem regexCapitalize_eq_specCapitalizeWords (cs : List Char) :
    ∀ b : Bool, (∀ c ∈ cs, c.isAlphanum = true ∨ c = ' ') →
      regexCapitalize b cs = specCapitalizeWords b cs := by
  induction cs with
  | nil => intro b _; rfl
  | cons c cs ih =>
    intro b h
    have hc := h c (List.mem_cons_self c cs)
    have hcs : ∀ x ∈ cs, x.isAlphanum = true ∨ x = ' ' :=
      fun x hx => h x (List.mem_cons_of_mem c hx)
    unfold regexCapitalize specCapitalizeWords
    by_cases hsp : c = ' '
    · subst hsp
      have hw : wordChar ' ' = false := by decide
      rw [if_pos rfl, hw]
      simp [ih false hcs]
    · rcases hc with ha | ha
      · have hw : wordChar c = true := by simp [wordChar, ha]
        rw [if_neg hsp, hw]
        cases b with
        | false => simp [ih true hcs]
        | true => simp [ih true hcs]
      · exact absurd ha hsp

/-- Claim C1 (counterexample): on the payload whose single prediction has
probability 0, `processXimilarResult` does not select the
maximum-probability prediction: the reduce keeps its null accumulator and
the fixed fallback is returned instead. -/
theorem processXimilarResult_zero_prob_not_selected :
    ¬ ∃ l1 u l2, extractPredictions zeroProbPayload = l1 ++ u :: l2 ∧
      (∀ p ∈ extractPredictions zeroProbPayload, p.prob ≤ u.prob) ∧
      (∀ p ∈ l1, p.prob < u.prob) ∧
      processXimilarResult zeroProbPayload = classifyPrediction u := by
  rintro ⟨l1, u, l2, hdec, -, -, heq⟩
  have hext : extractPredictions zeroProbPayload = [⟨"battery", 0⟩] := rfl
  rw [hext] at hdec
  have hu : u = ⟨"battery", (0 : ℚ)⟩ := by
    cases l1 with
    | nil =>
      rw [List.nil_append] at hdec
      injection hdec with h1 h2
      exact h1.symm
    | cons a l1 =>
      have hlen := congrArg List.length hdec
      simp only [List.length_cons, List.length_append, List.length_nil] at hlen
      omega
  subst hu
  have h1 : processXimilarResult zeroProbPayload = unknownFallback := by
    unfold processXimilarResult
    have htop : topPrediction (extractPredictions zeroProbPayload) = none := by
      apply foldl_topStep_none
      rw [hext]
      intro p hp
      rcases List.mem_cons.mp hp with rfl | hp
      · exact le_refl _
      · simp at hp
    rw [htop]
  rw [h1] at heq
  have hitem : unknownFallback.item = (classifyPrediction ⟨"battery", (0 : ℚ)⟩).item := by
    rw [heq]
  exact absurd hitem (by decide)

/-- Claim C1 (amended): for every payload whose outputs list holds at
least one prediction of positive probability, `processXimilarResult`
selects the first-encountered prediction of maximum probability: the list
splits around the winner, every probability is at most that of the winner,
every earlier one is strictly smaller, and the result is built from the
winner; ties in particular go to the first-seen prediction,
deterministically. -/
theorem processXimilarResult_first_max (x : XimilarResult)
    (h : ∃ p ∈ extractPredictions x, 0 < p.prob) :
    ∃ l1 u l2, extractPredictions x = l1 ++ u :: l2 ∧
      (∀ p ∈ extractPredictions x, p.prob ≤ u.prob) ∧
      (∀ p ∈ l1, p.prob < u.prob) ∧
      processXimilarResult x = classifyPrediction u := by
  obtain ⟨l1, u, l2, hdec, htop, hupos, hmax, hfirst⟩ := topPrediction_first_max _ h
  refine ⟨l1, u, l2, hdec, hmax, hfirst, ?_⟩
  unfold processXimilarResult
  rw [htop]

/-- Witness for the amended C1 at the tie scenario: battery and aluminum
can both at probability 0.6; the theorem applies and picks the
first-listed prediction. -/
theorem processXimilarResult_first_max_witness :
    (∃ p ∈ extractPredictions tiePayload, 0 < p.prob) ∧
    (∃ l1 u l2, extractPredictions tiePayload = l1 ++ u :: l2 ∧
      (∀ p ∈ extractPredictions tiePayload, p.prob ≤ u.prob) ∧
      (∀ p ∈ l1, p.prob < u.prob) ∧
      processXimilarResult tiePayload = classifyPrediction u) := by
  have h : ∃ p ∈ extractPredictions tiePayload, 0 < p.prob := by
    refine ⟨⟨"battery", 6/10⟩, ?_, by norm_num⟩
    simp [extractPredictions, tiePayload]
  exact ⟨h, processXimilarResult_first_max tiePayload h⟩

/-- Claim C4: a payload whose first record has an absent or empty outputs
list maps deterministically to the fixed Unknown-item fallback. -/
theorem processXimilarResult_absent_outputs (x : XimilarResult)
    (r : XimilarRecord) (rs : List XimilarRecord)
    (hrec : x.records = some (r :: rs))
    (hout : r.outputs = none ∨ r.outputs = some []) :
    processXimilarResult x =
      ⟨.nonBiodegradable, 50, "Unknown item",
        "Unable to classify this item. Please dispose of it responsibly."⟩ := by
  have hext : extractPredictions x = [] := by
    rcases hout with h | h <;> simp [extractPredictions, hrec, h]
  unfold processXimilarResult
  rw [hext]
  rfl

/-- Witness for C4 at the payload whose first record has no outputs
field. -/
theorem processXimilarResult_absent_outputs_witness :
    absentOutputsPayload.records = some [⟨none⟩] ∧
    processXimilarResult absentOutputsPayload =
      ⟨.nonBiodegradable, 50, "Unknown item",
        "Unable to classify this item. Please dispose of it responsibly."⟩ :=
  ⟨rfl, processXimilarResult_absent_outputs absentOutputsPayload ⟨none⟩ [] rfl (Or.inl rfl)⟩

/-- Claim C10: a non-empty outputs list in which every prediction has
probability 0 yields the fixed Unknown-item fallback, because the fold
only replaces its null accumulator on a strictly greater probability. -/
theorem processXimilarResult_all_zero (x : XimilarResult)
    (_hne : extractPredictions x ≠ [])
    (h0 : ∀ p ∈ extractPredictions x, p.prob = 0) :
    processXimilarResult x = unknownFallback := by
  have htop : topPrediction (extractPredictions x) = none :=
    foldl_topStep_none _ fun p hp => le_of_eq (h0 p hp)
  unfold processXimilarResult
  rw [htop]

/-- Witness for C10 at a two-prediction payload with both probabilities
zero. -/
theorem processXimilarResult_all_zero_witness :
    extractPredictions allZeroPayload ≠ [] ∧
    processXimilarResult allZeroPayload = unknownFallback := by
  have hne : extractPredictions allZeroPayload ≠ [] := by
    simp [extractPredictions, allZeroPayload]
  have h0 : ∀ p ∈ extractPredictions allZeroPayload, p.prob = 0 := by
    intro p hp
    have : p = (⟨"battery", 0⟩ : RawPrediction) ∨ p = (⟨"paper", 0⟩ : RawPrediction) := by
      simpa [extractPredictions, allZeroPayload] using hp
    rcases this with rfl | rfl <;> rfl
  exact ⟨hne, processXimilarResult_all_zero allZeroPayload hne h0⟩

/-- Claim C5: the plastic-bottle scenario maps to the recyclable result at
confidence 85 with the bottle tip; in general the confidence is the
rounded percentage of the winning probability and the item label is the
source transform of the winning label, which on provider-vocabulary
labels (letters, digits, underscores) equals the spec wording: underscores
to spaces, first letter of each word capitalized. -/
theorem processXimilarResult_confidence_item :
    processXimilarResult plasticBottlePayload =
      ⟨.recyclable, 85, "Plastic Bottle",
        "Clean and place in recycling bin. Check local recycling guidelines for proper disposal."⟩ ∧
    (∀ (x : XimilarResult) (t : RawPrediction),
      topPrediction (extractPredictions x) = some t →
        (processXimilarResult x).confidence = round (t.prob * 100) ∧
        (processXimilarResult x).item = displayItem t.label) ∧
    (∀ label : String, (∀ c ∈ label.data, c.isAlphanum = true ∨ c = '_') →
      displayItem label = specItemLabel label) := by
  refine ⟨?_, ?_, ?_⟩
  · have htop : topPrediction (extractPredictions plasticBottlePayload) =
        some ⟨"plastic_bottle", 85/100⟩ := by
      norm_num [topPrediction, extractPredictions, plasticBottlePayload, topPredictionStep]
    unfold processXimilarResult
    rw [htop]
    unfold classifyPrediction
    refine ClassificationResult.ext ?_ ?_ ?_ ?_
    · rfl
    · show round (((85 : ℚ)/100) * 100) = 85
      norm_num
    · rfl
    · rfl
  · intro x t htop
    unfold processXimilarResult
    rw [htop]
    exact ⟨rfl, rfl⟩
  · intro label hchars
    unfold displayItem specItemLabel
    refine congrArg String.mk ?_
    apply regexCapitalize_eq_specCapitalizeWords
    intro c hc
    obtain ⟨c0, hc0, hmap⟩ := List.mem_map.mp hc
    by_cases h0 : c0 = '_'
    · right
      rw [← hmap, h0]
      rfl
    · left
      have : c = c0 := by
        rw [← hmap]
        simp [h0]
      rw [this]
      rcases hchars c0 hc0 with ha | ha
      · exact ha
      · exact absurd ha h0

/-- Witness for C5 at the plastic-bottle payload. -/
theorem processXimilarResult_confidence_item_witness :
    topPrediction (extractPredictions plasticBottlePayload) =
      some ⟨"plastic_bottle", 85/100⟩ ∧
    ((processXimilarResult plasticBottlePayload).confidence =
        round (((85 : ℚ)/100) * 100) ∧
      (processXimilarResult plasticBottlePayload).item = displayItem "plastic_bottle") := by
  have htop : topPrediction (extractPredictions plasticBottlePayload) =
      some ⟨"plastic_bottle", 85/100⟩ := by
    norm_num [topPrediction, extractPredictions, plasticBottlePayload, topPredictionStep]
  exact ⟨htop, processXimilarResult_confidence_item.2.1 plasticBottlePayload
    ⟨"plastic_bottle", 85/100⟩ htop⟩

/-- Claim C6: the winning label is lowercased and looked up in the static
table with the general-waste entry as total default, so an unmapped label
uses the general-waste category and tip and the lookup never fails. -/
theorem processXimilarResult_unmapped_general (x : XimilarResult)
    (t : RawPrediction)
    (htop : topPrediction (extractPredictions x) = some t) :
    (processXimilarResult x).type =
        ((wasteMapping (lowercase t.label)).getD generalWasteEntry).type ∧
    (processXimilarResult x).tips =
        ((wasteMapping (lowercase t.label)).getD generalWasteEntry).tips ∧
    (wasteMapping (lowercase t.label) = none →
      (processXimilarResult x).type = generalWasteEntry.type ∧
      (processXimilarResult x).tips = generalWasteEntry.tips) ∧
    wasteMapping "general_waste" = some generalWasteEntry := by
  have hx : processXimilarResult x = classifyPrediction t := by
    unfold processXimilarResult
    rw [htop]
  refine ⟨by rw [hx]; rfl, by rw [hx]; rfl, ?_, rfl⟩
  intro hnone
  rw [hx]
  simp [classifyPrediction, hnone]

/-- Witness for C6 at a payload whose single label is not a table key. -/
theorem processXimilarResult_unmapped_general_witness :
    topPrediction (extractPredictions unknownLabelPayload) =
      some ⟨"Banana_Peel", 9/10⟩ ∧
    wasteMapping (lowercase "Banana_Peel") = none ∧
    ((processXimilarResult unknownLabelPayload).type = generalWasteEntry.type ∧
      (processXimilarResult unknownLabelPayload).tips = generalWasteEntry.tips) := by
  have htop : topPrediction (extractPredictions unknownLabelPayload) =
      some ⟨"Banana_Peel", 9/10⟩ := by
    norm_num [topPrediction, extractPredictions, unknownLabelPayload, topPredictionStep]
  have hnone : wasteMapping (lowercase "Banana_Peel") = none := by decide
  exact ⟨htop, hnone,
    (processXimilarResult_unmapped_general unknownLabelPayload
      ⟨"Banana_Peel", 9/10⟩ htop).2.2.1 hnone⟩

/-- Claim C2: when the classification call fails (non-success status or
thrown transport error), `analyzeWaste` does not retry: the result is
exactly the mock entry picked by the random index, hence one of the three
fixed mock results, each a complete valid result. -/
theorem analyzeWaste_failure_mock (o : FetchOutcome) (r : Fin 3)
    (h : isFailure o = true) :
    analyzeWaste o r = mockResults.get (Fin.cast mockResultsLength r) ∧
      analyzeWaste o r ∈ mockResults ∧
      validResult (analyzeWaste o r) ∧ mockResults.length = 3 := by
  cases o with
  | ok payload => simp [isFailure] at h
  | httpError =>
    refine ⟨rfl, ?_, ?_, rfl⟩
    · fin_cases r <;> decide
    · fin_cases r <;> exact ⟨by decide, by decide⟩
  | transportError =>
    refine ⟨rfl, ?_, ?_, rfl⟩
    · fin_cases r <;> decide
    · fin_cases r <;> exact ⟨by decide, by decide⟩

/-- Witness for C2 at a transport failure with random index 1. -/
theorem analyzeWaste_failure_mock_witness :
    isFailure FetchOutcome.transportError = true ∧
    (analyzeWaste .transportError 1 =
        mockResults.get (Fin.cast mockResultsLength 1) ∧
      analyzeWaste .transportError 1 ∈ mockResults ∧
      validResult (analyzeWaste .transportError 1) ∧ mockResults.length = 3) :=
  ⟨rfl, analyzeWaste_failure_mock .transportError 1 rfl⟩

/-- Claim C3: under unit-interval provider probabilities, the classify
pipeline (fetch plus mapper, both fallbacks included) always yields a
result whose confidence lies in [0, 100] and whose category is one of the
three enumeration values. -/
theorem analyzeWaste_result_valid (o : FetchOutcome) (r : Fin 3)
    (h : probsWellFormed o) :
    validResult (analyzeWaste o r) ∧
      ((analyzeWaste o r).type = .biodegradable ∨
        (analyzeWaste o r).type = .nonBiodegradable ∨
        (analyzeWaste o r).type = .recyclable) := by
  constructor
  · cases o with
    | ok payload =>
      show validResult (processXimilarResult payload)
      unfold processXimilarResult
      cases htop : topPrediction (extractPredictions payload) with
      | none =>
        show validResult unknownFallback
        exact ⟨by norm_num [unknownFallback], by norm_num [unknownFallback]⟩
      | some t =>
        have hmem := topPrediction_mem _ t htop
        have hb : 0 ≤ t.prob ∧ t.prob ≤ 1 := h t hmem
        exact round_prob_bounds t.prob hb.1 hb.2
    | httpError => fin_cases r <;> exact ⟨by decide, by decide⟩
    | transportError => fin_cases r <;> exact ⟨by decide, by decide⟩
  · cases htype : (analyzeWaste o r).type
    · exact Or.inl rfl
    · exact Or.inr (Or.inl rfl)
    · exact Or.inr (Or.inr rfl)

/-- Witness for C3 at the successful plastic-bottle payload with random
index 0. -/
theorem analyzeWaste_result_valid_witness :
    probsWellFormed (FetchOutcome.ok plasticBottlePayload) ∧
    (validResult (analyzeWaste (.ok plasticBottlePayload) 0) ∧
      ((analyzeWaste (.ok plasticBottlePayload) 0).type = .biodegradable ∨
        (analyzeWaste (.ok plasticBottlePayload) 0).type = .nonBiodegradable ∨
        (analyzeWaste (.ok plasticBottlePayload) 0).type = .recyclable)) := by
  have h : probsWellFormed (FetchOutcome.ok plasticBottlePayload) := by
    intro q hq
    have hq1 : q = ⟨"plastic_bottle", 85/100⟩ := by
      simpa [extractPredictions, plasticBottlePayload] using hq
    rw [hq1]
    norm_num
  exact ⟨h, analyzeWaste_result_valid (.ok plasticBottlePayload) 0 h⟩

/-- Claim C7: on provider failure (non-ok status or exception) the proxy
route still answers with the exact one-record, one-output shape holding a
single synthetic prediction with a unit-interval probability, so the
client mapper processes it like any provider result. -/
theorem classifyWastePOST_failure_shape (o : ProviderOutcome)
    (h : providerFailed o = true) :
    ∃ p : RawPrediction, classifyWastePOST o = ⟨some [⟨some [p]⟩]⟩ ∧
      0 ≤ p.prob ∧ p.prob ≤ 1 ∧
      validResult (processXimilarResult (classifyWastePOST o)) := by
  cases o with
  | ok body => simp [providerFailed] at h
  | httpError status =>
    refine ⟨⟨"plastic_bottle", 85/100⟩, rfl, by norm_num, by norm_num, ?_⟩
    have htop : topPrediction (extractPredictions
        (classifyWastePOST (.httpError status))) =
        some ⟨"plastic_bottle", 85/100⟩ := by
      norm_num [classifyWastePOST, topPrediction, extractPredictions,
        topPredictionStep]
    unfold processXimilarResult
    rw [htop]
    exact round_prob_bounds (85/100) (by norm_num) (by norm_num)
  | exception =>
    refine ⟨⟨"general_waste", 75/100⟩, rfl, by norm_num, by norm_num, ?_⟩
    have htop : topPrediction (extractPredictions
        (classifyWastePOST .exception)) =
        some ⟨"general_waste", 75/100⟩ := by
      norm_num [classifyWastePOST, topPrediction, extractPredictions,
        topPredictionStep]
    unfold processXimilarResult
    rw [htop]
    exact round_prob_bounds (75/100) (by norm_num) (by norm_num)

/-- Witness for C7 at a thrown provider exception. -/
theorem classifyWastePOST_failure_shape_witness :
    providerFailed ProviderOutcome.exception = true ∧
    ∃ p : RawPrediction,
      classifyWastePOST .exception = ⟨some [⟨some [p]⟩]⟩ ∧
      0 ≤ p.prob ∧ p.prob ≤ 1 ∧
      validResult (processXimilarResult (classifyWastePOST .exception)) :=
  ⟨rfl, classifyWastePOST_failure_shape .exception rfl⟩

/-- Claim C8: with the video not yet delivering a frame of non-zero width
and height, `captureImage` fails with the frame-not-ready error and
produces no image; conversely a successful capture never carries an empty
image. -/
theorem captureImage_frame_not_ready (v : VideoElement)
    (contextAvailable : Bool)
    (h : v.videoWidth = 0 ∨ v.videoHeight = 0) :
    captureImage (some v) true contextAvailable = .error .frameNotReady ∧
    ∀ (video : Option VideoElement) (canvasPresent ctx : Bool)
      (img : EncodedImage),
      captureImage video canvasPresent ctx = .ok img →
        img.width ≠ 0 ∧ img.height ≠ 0 := by
  constructor
  · simp only [captureImage]
    rw [if_pos h]
  · intro video canvasPresent ctx img hok
    cases video with
    | none => simp [captureImage] at hok
    | some w =>
      cases canvasPresent with
      | false => simp [captureImage] at hok
      | true =>
        simp only [captureImage] at hok
        by_cases hz : w.videoWidth = 0 ∨ w.videoHeight = 0
        · rw [if_pos hz] at hok
          exact absurd hok (by simp)
        · rw [if_neg hz] at hok
          push_neg at hz
          cases ctx with
          | false => simp at hok
          | true =>
            simp at hok
            rw [← hok]
            exact ⟨hz.1, hz.2⟩

/-- Witness for C8 at a zero-width video element. -/
theorem captureImage_frame_not_ready_witness :
    ((⟨0, 720, 5⟩ : VideoElement).videoWidth = 0 ∨
      (⟨0, 720, 5⟩ : VideoElement).videoHeight = 0) ∧
    (captureImage (some ⟨0, 720, 5⟩) true true = .error .frameNotReady ∧
      ∀ (video : Option VideoElement) (canvasPresent ctx : Bool)
        (img : EncodedImage),
        captureImage video canvasPresent ctx = .ok img →
          img.width ≠ 0 ∧ img.height ≠ 0) :=
  ⟨Or.inl rfl, captureImage_frame_not_ready ⟨0, 720, 5⟩ true (Or.inl rfl)⟩

/-- Claim C9 (code bug): after the very first successful camera
acquisition the component is back on the start screen, an Idle state,
with the live stream still held in the ref: starting the camera sets the
initializing flag, the acquisition stores the stream and (the video
element being unmounted, its ref null) skips straight to the
unconditional initializing-flag reset, entering the idle view without any
release.  So the claimed invariant, that every reachable Idle state holds
no stream, is false of the program. -/
theorem idleView_stream_leak :
    Reachable leakedState ∧ idleView leakedState ∧
      leakedState.stream = some 0 ∧
      ¬ (∀ s : AppState, Reachable s → idleView s → s.stream = none) := by
  have hreach : Reachable leakedState :=
    Reachable.step
      (Reachable.step Reachable.init
        (Step.startCameraRequest initialState ⟨rfl, rfl, rfl⟩))
      (Step.streamAcquired _ 0 rfl)
  refine ⟨hreach, ⟨rfl, rfl, rfl⟩, rfl, fun hall => ?_⟩
  have hnone := hall leakedState hreach ⟨rfl, rfl, rfl⟩
  simp [leakedState] at hnone

end TaponTama
